import Mathlib

/-!
Verification of the bank-settlement reconciliation pipeline (`tasks.py`):
column-name normalization, bank schema registry, type coercion, the chunk
processor, the transaction materializer and the batch committer.

Modelling conventions:
* Cell values are an explicit `Value` type.  Files are read with all-string
  cells, so raw cells are `Value.str` or `Value.null` (pandas `NaN`/`None`
  are both rendered as `Value.null`; nothing in the verified properties
  distinguishes them).  `Value.vNaT` is the null-date sentinel `pd.NaT`,
  `Value.date s` a successfully parsed datetime (carrying its source text),
  and `Value.frame` stands for the whole-DataFrame values that
  `process_transactions` stores into a record when it calls
  `convert_column_to_datetime(df_chunk, ...)` / `convert_payable_to_float(df_chunk, ...)`
  in a field position (those calls return the DataFrame itself).
* The format-tolerant datetime parser of `pd.to_datetime` is abstracted as a
  parameter `dateOk : String → Bool` (which strings parse); the verified
  claims never depend on the concrete date values.
* `pd.to_numeric(..., errors='coerce')` is modelled by `parseDec`, a
  signed-decimal parser (optional sign, digits, optional fractional part);
  unparseable input gives `none` (pandas `NaN`).
* The atomic bulk insert of the persistent store is abstracted by a Boolean
  `commitOk`: the store either commits the whole batch or none of it.
* Returning the `BatchResult` models publishing it to the result cache;
  `process_transactions` returning `none` models the early `return` (nothing
  published) when the bank has no registered numeric code.
-/

namespace Mpr

/-- Python whitespace characters as used by `str.split()` / `str.strip()`
(restricted to the ASCII set; all registry headers are ASCII). -/
def pyWs (c : Char) : Bool :=
  c = ' ' || c = '\t' || c = '\n' || c = '\r' || c = '\x0b' || c = '\x0c'

/-- One left-to-right pass of `re.sub(r'\[.*?\]', '', s)`.
`pending = some buf` means we are inside a match attempt that started at a
`'['`; `buf` holds the attempt's characters in reverse order.  Python's `.`
does not match a newline, so a newline aborts the attempt; since the buffer
then contains no `']'` and no newline, every retry position inside the
buffer also fails, and the buffered characters are emitted verbatim. -/
def rbGo : Option (List Char) → List Char → List Char
  | none, [] => []
  | some buf, [] => buf.reverse
  | none, c :: cs =>
      if c = '[' then rbGo (some [c]) cs
      else c :: rbGo none cs
  | some buf, c :: cs =>
      if c = ']' then rbGo none cs
      else if c = '\n' then buf.reverse ++ c :: rbGo none cs
      else rbGo (some (c :: buf)) cs

/-- `column_cleaning_regex.sub('', s)`: remove every non-greedy
square-bracketed substring. -/
def removeBrackets (l : List Char) : List Char := rbGo none l

/-- `''.join(part for part in s.split() if part)`: remove all whitespace. -/
def removeWs (l : List Char) : List Char := l.filter (fun c => !pyWs c)

/-- `''.join(char for char in s if char not in ['.', '_'])`. -/
def removeDotUnderscore (l : List Char) : List Char :=
  l.filter (fun c => !(c = '.' || c = '_'))

/-- Python `str.strip()`. -/
def stripList (l : List Char) : List Char :=
  ((l.dropWhile pyWs).reverse.dropWhile pyWs).reverse

/-- `clean_column_name` on a character list. -/
def cleanList (l : List Char) : List Char :=
  stripList (removeDotUnderscore (removeWs (removeBrackets l)))

/-- `clean_column_name(column_name)` from `tasks.py`. -/
def clean_column_name (s : String) : String := String.mk (cleanList s.data)

/-- Does the list contain a closing bracket `']'`? -/
def hasClose (l : List Char) : Bool := l.any (fun c => c = ']')

/-- Does the list contain a `'['` with a `']'` somewhere after it
(i.e. a substring the bracket regex could match, ignoring newlines)? -/
def hasPair : List Char → Bool
  | [] => false
  | c :: cs => (c = '[' && hasClose cs) || hasPair cs

/-- Value of a digit string (most significant first). -/
def digitsVal (cs : List Char) : ℕ :=
  cs.foldl (fun a c => a * 10 + (c.toNat - 48)) 0

/-- Unsigned part of the decimal parser: digits with an optional single
point, at least one digit overall. -/
def parseUnsigned (cs : List Char) : Option ℚ :=
  let intPart := cs.takeWhile Char.isDigit
  let rest := cs.dropWhile Char.isDigit
  match rest with
  | [] => if intPart.isEmpty then none else some (digitsVal intPart)
  | '.' :: frac =>
      if frac.all Char.isDigit && !(intPart.isEmpty && frac.isEmpty) then
        some ((digitsVal intPart : ℚ) + (digitsVal frac : ℚ) / (10 ^ frac.length))
      else none
  | _ => none

/-- Signed decimal parser: models the numeric conversion performed by
`pd.to_numeric(..., errors='coerce')`, restricted to plain signed decimal
notation; anything else coerces to `NaN` (`none`). -/
def parseDec : List Char → Option ℚ
  | '-' :: cs => (parseUnsigned cs).map (fun q => -q)
  | '+' :: cs => parseUnsigned cs
  | cs => parseUnsigned cs

/-- `s.replace(',', '')` as used by `convert_payable_to_float`. -/
def stripCommas (l : List Char) : List Char := l.filter (fun c => !(c = ','))

/-- A cell or record-field value (see the header comment for conventions). -/
inductive Value where
  | str (s : String)
  | num (q : ℚ)
  | date (s : String)
  | vNaT
  | frame
  | null
  deriving DecidableEq

/-- A schema registry entry: the expected raw columns and the rename map
from cleaned column name to canonical field name. -/
structure Mapping where
  columns : List String
  column_mapping : List (String × String)
  deriving DecidableEq

/-- `BANK_MAPPINGS['karur_vysya']['booking']`. -/
def kvBooking : Mapping :=
  { columns := ["TXN DATE", "IRCTC ORDER NO.", "BANK BOOKING REF.NO.",
                "BOOKING AMOUNT", "CREDITED ON"],
    column_mapping :=
      [("IRCTCORDERNO", "Order_Id"),
       ("BANKBOOKINGREFNO", "Bank_Ref_id"),
       ("BOOKINGAMOUNT", "Payable_Merchant"),
       ("TXNDATE", "Transaction_Date"),
       ("CREDITEDON", "Settlement_Date")] }

/-- `BANK_MAPPINGS['karur_vysya']['refund']`. -/
def kvRefund : Mapping :=
  { columns := ["REFUND DATE", "IRCTC ORDER NO.", "BANK BOOKING REF.NO.",
                "BANK REFUND REF.NO.", "REFUND AMOUNT", "DEBITED ON"],
    column_mapping :=
      [("IRCTCORDERNO", "Order_Id"),
       ("REFUNDAMOUNT", "Payable_Merchant"),
       ("DEBITEDON", "Settlement_Date"),
       ("REFUNDDATE", "Transaction_Date"),
       ("BANKBOOKINGREFNO", "Bank_Ref_id"),
       ("BANKREFUNDREFNO", "Refund_Order_Id")] }

/-- `BANK_MAPPINGS['icici']['both']`. -/
def iciciBoth : Mapping :=
  { columns := ["POST DATE", "FT NO.", "SESSION ID [ASPD]", "ARN NO", "MID",
                "TRANSACTION DATE", "NET AMT", "CARD NUMBER", "CARD TYPE", "TID"],
    column_mapping :=
      [("TRANSACTIONDATE", "Transaction_Date"),
       ("SESSIONID", "Order_Id"),
       ("FTNO", "Transaction_Id"),
       ("ARNNO", "Arn_No"),
       ("MID", "MID"),
       ("POSTDATE", "Settlement_Date"),
       ("NETAMT", "Payable_Merchant"),
       ("CARDNUMBER", "Card_No"),
       ("CARDTYPE", "Card_type"),
       ("TID", "Tid")] }

/-- `BANK_MAPPINGS` from `tasks.py`, as a nested association list. -/
def BANK_MAPPINGS : List (String × List (String × Mapping)) :=
  [("karur_vysya", [("booking", kvBooking), ("refund", kvRefund)]),
   ("icici", [("both", iciciBoth)])]

/-- `BANK_CODE_MAPPING` from `tasks.py`. -/
def BANK_CODE_MAPPING : List (String × ℕ) :=
  [("hdfc", 101), ("icici", 102), ("karur_vysya", 40)]

/-- `banks_with_mid_override` from `process_transactions`. -/
def banks_with_mid_override : List String := ["hdfc", "icici", "indus"]

/-- A rectangular chunk: column labels plus rows of cells aligned by
position (the shape of a pandas DataFrame read with `dtype=str`). -/
structure Df where
  cols : List String
  rows : List (List Value)

/-- `row.get(name)` / `row[name]` of a pandas row: value of the first
column carrying the label, `None` if the label is absent. -/
def getCol (cols : List String) (name : String) (row : List Value) : Value :=
  match (cols.zip row).find? (fun p => p.1 == name) with
  | some p => p.2
  | none => Value.null

/-- `df[name] = df[name].apply(f)`-style columnwise update of one row. -/
def applyColRow (cols : List String) (name : String) (f : Value → Value)
    (row : List Value) : List Value :=
  (cols.zip row).map (fun p => if p.1 == name then f p.2 else p.2)

/-- Columnwise update of a whole chunk. -/
def applyCol (name : String) (f : Value → Value) (df : Df) : Df :=
  { cols := df.cols, rows := df.rows.map (applyColRow df.cols name f) }

/-- The cell-level action of `pd.to_datetime(..., errors='coerce')`:
strings the tolerant parser accepts become datetimes, everything else
(unparseable strings, missing values) becomes the `NaT` sentinel. -/
def dtParseCell (dateOk : String → Bool) (v : Value) : Value :=
  match v with
  | Value.str s => if dateOk s then Value.date s else Value.vNaT
  | _ => Value.vNaT

/-- `convert_column_to_datetime(df, column_name)` from `tasks.py`. -/
def convert_column_to_datetime (dateOk : String → Bool) (df : Df)
    (column_name : String) : Df :=
  applyCol column_name (dtParseCell dateOk) df

/-- The cell-level action of
`pd.to_numeric(df[c].str.replace(',', ''), errors='coerce')`:
strip commas, parse as a signed decimal, unparseable or missing gives
`NaN` (modelled as `Value.null`). -/
def amtParseCell (v : Value) : Value :=
  match v with
  | Value.str s =>
      match parseDec (stripCommas s.data) with
      | some q => Value.num q
      | none => Value.null
  | _ => Value.null

/-- `convert_payable_to_float(df, column_name)` from `tasks.py`. -/
def convert_payable_to_float (df : Df) (column_name : String) : Df :=
  applyCol column_name amtParseCell df

/-- `df['Payable_Merchant'].fillna(0)` at cell level. -/
def fillZeroCell (v : Value) : Value :=
  match v with
  | Value.null => Value.num 0
  | w => w

/-- The lambda `'CREDIT' if x > 0 else 'DEBIT' if x < 0 else None` applied
to a (filled) numeric cell; non-numeric input compares false both ways. -/
def creditDebitCell (v : Value) : Value :=
  match v with
  | Value.num q =>
      if 0 < q then Value.str "CREDIT"
      else if q < 0 then Value.str "DEBIT"
      else Value.null
  | _ => Value.null

/-- `pandas.DataFrame.rename`: a label that is a key of the map is replaced
by its target, any other label is kept. -/
def renameCol (cm : List (String × String)) (c : String) : String :=
  match cm.lookup c with
  | some t => t
  | none => c

/-- Schema lookup of `process_dataframe_chunk` (lines 359-367):
the exact `(bank, transaction_type)` entry if present, else the
`(bank, 'both')` entry, else nothing. -/
def resolveMapping (bank ty : String) : Option Mapping :=
  match BANK_MAPPINGS.lookup bank with
  | none => none
  | some bm =>
      match bm.lookup ty with
      | some m => some m
      | none => bm.lookup "both"

/-- Why a chunk was rejected before materialization. -/
inductive Reject where
  | noMapping
  | missingCols (missing : List String)
  deriving DecidableEq

/-- A per-chunk batch outcome: the published counts, the batch handed to
the committer, and what the store retained (all of it or none of it). -/
structure BatchResult where
  total_successful : ℕ
  total_failed : ℕ
  deriving DecidableEq

/-- A materialized transaction record: the field/value pairs of the
`transaction_data` dict, in construction order. -/
abbrev TransactionData := List (String × Value)

/-- `transaction_data[field]`, with `None` for an absent field. -/
def getField (td : TransactionData) (k : String) : Value :=
  match td.find? (fun p => p.1 == k) with
  | some p => p.2
  | none => Value.null

/-- The five datetime fields checked by `handle_nat_in_datetime_fields`. -/
def datetime_fields : List String :=
  ["Transaction_Date", "Settlement_Date", "Refund_Request_Date",
   "Credit_Debit_Date", "File_upload_Date"]

/-- `handle_nat_in_datetime_fields(transaction_data)`: every datetime field
holding the `NaT` sentinel is rewritten to `None`. -/
def handle_nat_in_datetime_fields (td : TransactionData) : TransactionData :=
  td.map (fun p =>
    if datetime_fields.contains p.1 && p.2 == Value.vNaT
    then (p.1, Value.null) else p)

/-- The `transaction_data` dict of `process_transactions` (lines 417-465),
in source order.  The fields assigned from
`convert_column_to_datetime(df_chunk, ...) if ... in df_chunk else None`
(and the float analogues) receive the returned DataFrame itself when the
column exists, modelled by `Value.frame`. -/
def build_transaction_data (cols : List String) (row : List Value)
    (bank ty merchant : String) (bid : ℕ) : TransactionData :=
  [("Transaction_type", Value.str ty),
   ("Merchant_Name", Value.str merchant),
   ("MID", if banks_with_mid_override.contains bank
           then getCol cols "MID" row else Value.num bid),
   ("Transaction_Id", getCol cols "Transaction_Id" row),
   ("Order_Id", getCol cols "Order_Id" row),
   ("Transaction_Date", getCol cols "Transaction_Date" row),
   ("Settlement_Date", getCol cols "Settlement_Date" row),
   ("Refund_Request_Date",
     if cols.contains "Refund_Request_Date" then Value.frame else Value.null),
   ("Gross_Amount",
     if cols.contains "Gross_Amount" then Value.frame else Value.null),
   ("Aggregator_Com",
     if cols.contains "Aggregator_Com" then Value.frame else Value.null),
   ("Acquirer_Comm",
     if cols.contains "Acquirer_Comm" then Value.frame else Value.null),
   ("Payable_Merchant", getCol cols "Payable_Merchant" row),
   ("Payout_from_Nodal",
     if cols.contains "Payout_from_Nodal" then Value.frame else Value.null),
   ("BankName_Receive_Funds", getCol cols "BankName_Receive_Funds" row),
   ("Nodal_Account_No", getCol cols "Nodal_Account_No" row),
   ("Aggregator_Name", getCol cols "Aggregator_Name" row),
   ("Acquirer_Name", getCol cols "Acquirer_Name" row),
   ("Refund_Flag", getCol cols "Refund_Flag" row),
   ("Payments_Type", getCol cols "Payments_Type" row),
   ("MOP_Type", getCol cols "MOP_Type" row),
   ("Credit_Debit_Date",
     if cols.contains "Credit_Debit_Date" then Value.frame else Value.null),
   ("Bank_Name", Value.str bank),
   ("Refund_Order_Id", getCol cols "Refund_Order_Id" row),
   ("Acq_Id", getCol cols "Acq_Id" row),
   ("Approve_code", getCol cols "Approve_code" row),
   ("Arn_No", getCol cols "Arn_No" row),
   ("Card_No", getCol cols "Card_No" row),
   ("Tid", getCol cols "Tid" row),
   ("Remarks", getCol cols "Remarks" row),
   ("Bank_Ref_id", getCol cols "Bank_Ref_id" row),
   ("File_upload_Date",
     if cols.contains "File_upload_Date" then Value.frame else Value.null),
   ("User_name", getCol cols "User_name" row),
   ("Recon_Status", getCol cols "Recon_Status" row),
   ("Mpr_Summary_Trans", getCol cols "Mpr_Summary_Trans" row),
   ("Merchant_code", getCol cols "Merchant_code" row),
   ("Rec_Fmt", getCol cols "Rec_Fmt" row),
   ("Card_type", getCol cols "Card_type" row),
   ("Intl_Amount",
     if cols.contains "Intl_Amount" then Value.frame else Value.null),
   ("Domestic_Amount",
     if cols.contains "Domestic_Amount" then Value.frame else Value.null),
   ("UDF1", Value.null),
   ("UDF2", Value.null),
   ("UDF3", Value.null),
   ("UDF4", Value.null),
   ("UDF5", Value.null),
   ("UDF6", Value.null),
   ("GST_Number", getCol cols "GST_Number" row),
   ("Credit_Debit_Amount", getCol cols "CREDIT_DEBIT_AMOUNT" row)]

/-- Outcome of one `process_transactions` call: the counts it publishes to
the result cache, the batch it hands to the committer, and the records the
store retains (the whole batch on a successful atomic commit, none on a
failed one). -/
structure TxnOutcome where
  result : BatchResult
  batch : List TransactionData
  persisted : List TransactionData

/-- One step of the row loop of `process_transactions`: rows whose
transaction type is invalid are counted failed and skipped; every other
row is materialized, post-processed for `NaT`, appended and counted
successful. -/
def txnStep (cols : List String) (bank ty merchant : String) (bid : ℕ)
    (acc : ℕ × ℕ × List TransactionData) (row : List Value) :
    ℕ × ℕ × List TransactionData :=
  if ty = "booking" ∨ ty = "refund" ∨ ty = "both" then
    (acc.1 + 1, acc.2.1,
     acc.2.2 ++ [handle_nat_in_datetime_fields
       (build_transaction_data cols row bank ty merchant bid)])
  else
    (acc.1, acc.2.1 + 1, acc.2.2)

/-- `process_transactions(df_chunk, bank_name, transaction_type,
merchant_name)` from `tasks.py`.  `commitOk` abstracts whether the atomic
bulk insert succeeds.  `none` models the early `return` (no commit, no
published result) when the bank has no entry in `BANK_CODE_MAPPING`. -/
def process_transactions (df : Df) (bank ty merchant : String)
    (commitOk : Bool) : Option TxnOutcome :=
  match BANK_CODE_MAPPING.lookup bank with
  | none => none
  | some bid =>
      let acc := df.rows.foldl (txnStep df.cols bank ty merchant bid) (0, 0, [])
      let fail := if commitOk then acc.2.1 else acc.2.1 + acc.2.2.length
      some { result := { total_successful := acc.1, total_failed := fail },
             batch := acc.2.2,
             persisted := if commitOk then acc.2.2 else [] }

/-- Steps 5-6 of `process_dataframe_chunk` (lines 376-388): datetime and
amount coercion, and for `icici` the zero-fill plus derivation of the
`CREDIT_DEBIT_AMOUNT` column from the sign of `Payable_Merchant`. -/
def coerceStage (dateOk : String → Bool) (bank : String) (df : Df) : Df :=
  let df1 := if df.cols.contains "Transaction_Date"
             then convert_column_to_datetime dateOk df "Transaction_Date" else df
  let df2 := if df1.cols.contains "Settlement_Date"
             then convert_column_to_datetime dateOk df1 "Settlement_Date" else df1
  if df2.cols.contains "Payable_Merchant" then
    let dfA := convert_payable_to_float df2 "Payable_Merchant"
    if bank = "icici" then
      let dfB := applyCol "Payable_Merchant" fillZeroCell dfA
      { cols := dfB.cols ++ ["CREDIT_DEBIT_AMOUNT"],
        rows := dfB.rows.map (fun r =>
          r ++ [creditDebitCell (getCol dfB.cols "Payable_Merchant" r)]) }
    else dfA
  else df2

/-- The body of `process_dataframe_chunk` after schema resolution
(lines 369-393): clean the expected columns, verify they are all present,
rename, coerce, then materialize; otherwise reject with the missing set. -/
def afterResolve (dateOk : String → Bool) (m : Mapping) (df : Df)
    (bank ty merchant : String) (commitOk : Bool) :
    Except Reject (Option TxnOutcome) :=
  let cols1 := df.cols.map clean_column_name
  let expected := m.columns.map clean_column_name
  if expected.all (fun c => cols1.contains c) then
    let dfRenamed : Df :=
      { cols := cols1.map (renameCol m.column_mapping), rows := df.rows }
    let dfCoerced := coerceStage dateOk bank dfRenamed
    Except.ok (process_transactions dfCoerced bank ty merchant commitOk)
  else
    Except.error (Reject.missingCols (expected.filter (fun c => !cols1.contains c)))

/-- `process_dataframe_chunk(df_chunk, bank_name, transaction_type,
merchant_name)` from `tasks.py`: normalize headers, resolve the schema
(rejecting when no mapping exists), then run `afterResolve`. -/
def process_dataframe_chunk (dateOk : String → Bool) (df : Df)
    (bank ty merchant : String) (commitOk : Bool) :
    Except Reject (Option TxnOutcome) :=
  match resolveMapping bank ty with
  | none => Except.error Reject.noMapping
  | some m => afterResolve dateOk m df bank ty merchant commitOk

/-- The batch a `process_transactions` outcome handed to the committer
(empty when the call returned without reaching the committer). -/
def batchOf (o : Option TxnOutcome) : List TransactionData :=
  match o with
  | some out => out.batch
  | none => []

/-- The all-false datetime oracle, used to instantiate witnesses. -/
def noDate : String → Bool := fun _ => false

/-- The empty chunk, used to instantiate witnesses. -/
def emptyDf : Df := { cols := [], rows := [] }

/-- Association-list lookup only returns pairs of the list. -/
theorem lookup_mem {α β : Type} [BEq α] [LawfulBEq α] :
    ∀ {l : List (α × β)} {k : α} {v : β}, l.lookup k = some v → (k, v) ∈ l := by
  intro l
  induction l with
  | nil => intro k v h; simp [List.lookup] at h
  | cons p ps ih =>
      obtain ⟨pk, pv⟩ := p
      intro k v h
      rw [List.lookup] at h
      by_cases hk : (k == pk) = true
      · simp only [hk] at h
        have hkeq : k = pk := eq_of_beq hk
        cases h
        subst hkeq
        exact List.mem_cons_self _ _
      · rw [Bool.not_eq_true] at hk
        simp only [hk] at h
        exact List.mem_cons_of_mem _ (ih h)

/-- Schema resolution only ever produces the three registry entries. -/
theorem resolve_cases {bank ty : String} {m : Mapping}
    (h : resolveMapping bank ty = some m) :
    (bank = "karur_vysya" ∧ ty = "booking" ∧ m = kvBooking) ∨
    (bank = "karur_vysya" ∧ ty = "refund" ∧ m = kvRefund) ∨
    (bank = "icici" ∧ m = iciciBoth) := by
  rw [resolveMapping] at h
  cases e : BANK_MAPPINGS.lookup bank with
  | none => rw [e] at h; cases h
  | some bm =>
      rw [e] at h
      dsimp only at h
      have hbm := lookup_mem e
      rw [BANK_MAPPINGS] at hbm
      simp only [List.mem_cons, List.not_mem_nil, or_false] at hbm
      rcases hbm with hbm | hbm
      · injection hbm with hb hm
        subst hb
        subst hm
        cases e2 : List.lookup ty [("booking", kvBooking), ("refund", kvRefund)] with
        | some m2 =>
            rw [e2] at h
            cases h
            have hm2 := lookup_mem e2
            simp only [List.mem_cons, List.not_mem_nil, or_false] at hm2
            rcases hm2 with hm2 | hm2
            · injection hm2 with h1 h2
              exact Or.inl ⟨rfl, h1, h2⟩
            · injection hm2 with h1 h2
              exact Or.inr (Or.inl ⟨rfl, h1, h2⟩)
        | none =>
            rw [e2] at h
            have hb := lookup_mem h
            simp only [List.mem_cons, List.not_mem_nil, or_false] at hb
            rcases hb with hb | hb
            · injection hb with h1 h2
              exact absurd h1 (by decide)
            · injection hb with h1 h2
              exact absurd h1 (by decide)
      · injection hbm with hb hm
        subst hb
        subst hm
        cases e2 : List.lookup ty [("both", iciciBoth)] with
        | some m2 =>
            rw [e2] at h
            cases h
            have hm2 := lookup_mem e2
            simp only [List.mem_cons, List.not_mem_nil, or_false] at hm2
            injection hm2 with h1 h2
            exact Or.inr (Or.inr ⟨rfl, h2⟩)
        | none =>
            rw [e2] at h
            have hb := lookup_mem h
            simp only [List.mem_cons, List.not_mem_nil, or_false] at hb
            injection hb with h1 h2
            exact Or.inr (Or.inr ⟨rfl, h2⟩)

/-- Claim C9: the amount coercer strips thousands-separator commas, parses
the result as a signed decimal, yields null on every non-parseable input
(it is a total function, so it never raises), and in particular maps
"1,234.50" to 1234.50 and "abc" to null. -/
theorem C9_to_amount_strips_commas_never_raises :
    (∀ s : String, amtParseCell (Value.str s) =
      match parseDec (stripCommas s.data) with
      | some q => Value.num q
      | none => Value.null)
    ∧ amtParseCell (Value.str "1,234.50") = Value.num (1234.50 : ℚ)
    ∧ amtParseCell (Value.str "abc") = Value.null := by
  refine ⟨fun s => rfl, ?_, ?_⟩
  · have e1 : amtParseCell (Value.str "1,234.50") =
        Value.num (((1234 : ℕ) : ℚ) + ((50 : ℕ) : ℚ) / (10 : ℚ) ^ (2 : ℕ)) := rfl
    rw [e1]
    norm_num
  · rfl

/-- Claim C3: every schema the registry can resolve has expected headers
that are fixed points of the column normalizer. -/
theorem C3_registry_headers_normalized :
    ∀ bank ty m, resolveMapping bank ty = some m →
      ∀ c ∈ m.columns,
        clean_column_name (clean_column_name c) = clean_column_name c := by
  intro bank ty m h c hc
  rcases resolve_cases h with ⟨_, _, rfl⟩ | ⟨_, _, rfl⟩ | ⟨_, rfl⟩ <;>
    revert hc <;> revert c <;> decide

/-- Witness for C3 at the (icici, both) entry and its first header. -/
theorem C3_witness :
    resolveMapping "icici" "both" = some iciciBoth ∧
    "POST DATE" ∈ iciciBoth.columns ∧
    clean_column_name (clean_column_name "POST DATE") =
      clean_column_name "POST DATE" :=
  ⟨rfl, by decide,
   C3_registry_headers_normalized "icici" "both" iciciBoth rfl "POST DATE" (by decide)⟩

/-- Claim C8: schema resolution tries the exact (bank, type) entry first,
then the (bank, "both") entry, and otherwise the chunk is rejected with
`noMapping` (no records, nothing raised). -/
theorem C8_schema_lookup_order :
    ∀ (dateOk : String → Bool) (df : Df) (bank ty merchant : String)
      (commitOk : Bool),
      (∀ bm m, BANK_MAPPINGS.lookup bank = some bm → bm.lookup ty = some m →
        process_dataframe_chunk dateOk df bank ty merchant commitOk =
          afterResolve dateOk m df bank ty merchant commitOk)
      ∧ (∀ bm m, BANK_MAPPINGS.lookup bank = some bm → bm.lookup ty = none →
          bm.lookup "both" = some m →
          process_dataframe_chunk dateOk df bank ty merchant commitOk =
            afterResolve dateOk m df bank ty merchant commitOk)
      ∧ (BANK_MAPPINGS.lookup bank = none →
          process_dataframe_chunk dateOk df bank ty merchant commitOk =
            Except.error Reject.noMapping)
      ∧ (∀ bm, BANK_MAPPINGS.lookup bank = some bm → bm.lookup ty = none →
          bm.lookup "both" = none →
          process_dataframe_chunk dateOk df bank ty merchant commitOk =
            Except.error Reject.noMapping) := by
  intro dateOk df bank ty merchant commitOk
  refine ⟨?_, ?_, ?_, ?_⟩
  · intro bm m h1 h2
    simp [process_dataframe_chunk, resolveMapping, h1, h2]
  · intro bm m h1 h2 h3
    simp [process_dataframe_chunk, resolveMapping, h1, h2, h3]
  · intro h1
    simp [process_dataframe_chunk, resolveMapping, h1]
  · intro bm h1 h2 h3
    simp [process_dataframe_chunk, resolveMapping, h1, h2, h3]

/-- Witness for C8: an exact hit, a "both" fallback, and a NotFound. -/
theorem C8_witness :
    process_dataframe_chunk noDate emptyDf "karur_vysya" "booking" "m" true =
      afterResolve noDate kvBooking emptyDf "karur_vysya" "booking" "m" true ∧
    process_dataframe_chunk noDate emptyDf "icici" "refund" "m" true =
      afterResolve noDate iciciBoth emptyDf "icici" "refund" "m" true ∧
    process_dataframe_chunk noDate emptyDf "sbi" "booking" "m" true =
      Except.error Reject.noMapping :=
  ⟨(C8_schema_lookup_order noDate emptyDf "karur_vysya" "booking" "m" true).1
     [("booking", kvBooking), ("refund", kvRefund)] kvBooking rfl rfl,
   (C8_schema_lookup_order noDate emptyDf "icici" "refund" "m" true).2.1
     [("both", iciciBoth)] iciciBoth rfl rfl rfl,
   (C8_schema_lookup_order noDate emptyDf "sbi" "booking" "m" true).2.2.1 rfl⟩

/-- The row loop of `process_transactions` on a valid transaction type:
every row is materialized and counted successful. -/
theorem txn_foldl_valid (cols : List String) (bank ty merchant : String)
    (bid : ℕ) (hty : ty = "booking" ∨ ty = "refund" ∨ ty = "both") :
    ∀ (rows : List (List Value)) (a b : ℕ) (l : List TransactionData),
      rows.foldl (txnStep cols bank ty merchant bid) (a, b, l) =
        (a + rows.length, b,
         l ++ rows.map (fun row => handle_nat_in_datetime_fields
           (build_transaction_data cols row bank ty merchant bid))) := by
  intro rows
  induction rows with
  | nil => intro a b l; simp
  | cons r rs ih =>
      intro a b l
      rw [List.foldl_cons]
      have hstep : txnStep cols bank ty merchant bid (a, b, l) r =
          (a + 1, b, l ++ [handle_nat_in_datetime_fields
            (build_transaction_data cols r bank ty merchant bid)]) := by
        rw [txnStep, if_pos hty]
      rw [hstep, ih]
      simp only [List.map_cons, List.length_cons, List.append_assoc,
        List.singleton_append, Prod.mk.injEq, and_true, true_and]
      omega

/-- `process_transactions` on a valid transaction type and a registered
bank: all rows are materialized, the failure count is the whole batch
exactly when the atomic commit fails, and the store keeps the batch
exactly when it succeeds. -/
theorem process_transactions_valid (df : Df) (bank ty merchant : String)
    (commitOk : Bool) (bid : ℕ)
    (hb : BANK_CODE_MAPPING.lookup bank = some bid)
    (hty : ty = "booking" ∨ ty = "refund" ∨ ty = "both") :
    process_transactions df bank ty merchant commitOk =
      some { result := { total_successful := df.rows.length,
                         total_failed := if commitOk then 0 else df.rows.length },
             batch := df.rows.map (fun row => handle_nat_in_datetime_fields
               (build_transaction_data df.cols row bank ty merchant bid)),
             persisted := if commitOk
               then df.rows.map (fun row => handle_nat_in_datetime_fields
                 (build_transaction_data df.cols row bank ty merchant bid))
               else [] } := by
  rw [process_transactions, hb]
  dsimp only
  rw [txn_foldl_valid df.cols bank ty merchant bid hty df.rows 0 0 []]
  simp [List.length_map]

/-- Reading a field after `handle_nat_in_datetime_fields`: the value
is unchanged unless the field is a datetime field holding `NaT`, in which
case it is null. -/
theorem getField_handle_nat (td : TransactionData) (k : String) :
    getField (handle_nat_in_datetime_fields td) k =
      if datetime_fields.contains k && getField td k == Value.vNaT
      then Value.null else getField td k := by
  induction td with
  | nil =>
      simp [handle_nat_in_datetime_fields, getField, List.find?]
  | cons p ps ih =>
      obtain ⟨pk, pv⟩ := p
      have hmap : handle_nat_in_datetime_fields ((pk, pv) :: ps) =
          (if datetime_fields.contains pk && pv == Value.vNaT
           then (pk, Value.null) else (pk, pv)) :: handle_nat_in_datetime_fields ps := rfl
      rw [hmap]
      by_cases hk : (pk == k) = true
      · have hkeq : pk = k := eq_of_beq hk
        subst hkeq
        by_cases hd : (datetime_fields.contains pk && pv == Value.vNaT) = true
        · rw [if_pos hd]
          have h1 : getField ((pk, Value.null) :: handle_nat_in_datetime_fields ps) pk =
              Value.null := by
            simp [getField, List.find?]
          have h2 : getField ((pk, pv) :: ps) pk = pv := by
            simp [getField, List.find?]
          rw [h1, h2, if_pos hd]
        · rw [if_neg hd]
          have h1 : getField ((pk, pv) :: handle_nat_in_datetime_fields ps) pk = pv := by
            simp [getField, List.find?]
          have h2 : getField ((pk, pv) :: ps) pk = pv := by
            simp [getField, List.find?]
          rw [h1, h2, if_neg hd]
      · have hk' : (pk == k) = false := by
          rw [Bool.not_eq_true] at hk
          exact hk
        have h1 : ∀ v rest, getField ((pk, v) :: rest) k = getField rest k := by
          intro v rest
          simp [getField, List.find?, hk']
        by_cases hd : (datetime_fields.contains pk && pv == Value.vNaT) = true
        · rw [if_pos hd, h1, h1, ih]
        · rw [if_neg hd, h1, h1, ih]

/-- A datetime field of a post-processed record is never the sentinel. -/
theorem handle_nat_no_sentinel (td : TransactionData) (f : String)
    (hf : f ∈ datetime_fields) :
    getField (handle_nat_in_datetime_fields td) f ≠ Value.vNaT := by
  rw [getField_handle_nat]
  by_cases hd : (datetime_fields.contains f && getField td f == Value.vNaT) = true
  · rw [if_pos hd]
    intro hcon
    cases hcon
  · rw [if_neg hd]
    intro hcon
    apply hd
    have h1 : datetime_fields.contains f = true := by
      rw [List.contains_eq_any_beq]
      rw [List.any_eq_true]
      exact ⟨f, hf, by simp⟩
    rw [h1, hcon]
    simp

/-- Every record of a batch is a post-processed materialized row. -/
theorem batch_mem_shape (cols : List String) (bank ty merchant : String)
    (bid : ℕ) :
    ∀ (rows : List (List Value)) (acc : ℕ × ℕ × List TransactionData)
      (td : TransactionData),
      td ∈ (rows.foldl (txnStep cols bank ty merchant bid) acc).2.2 →
      td ∈ acc.2.2 ∨ ∃ row ∈ rows, td = handle_nat_in_datetime_fields
        (build_transaction_data cols row bank ty merchant bid) := by
  intro rows
  induction rows with
  | nil => intro acc td h; exact Or.inl h
  | cons r rs ih =>
      intro acc td h
      rw [List.foldl_cons] at h
      rcases ih (txnStep cols bank ty merchant bid acc r) td h with h1 | h1
      · rw [txnStep] at h1
        by_cases hty : ty = "booking" ∨ ty = "refund" ∨ ty = "both"
        · rw [if_pos hty] at h1
          simp only [List.mem_append, List.mem_singleton] at h1
          rcases h1 with h1 | h1
          · exact Or.inl h1
          · exact Or.inr ⟨r, List.mem_cons_self _ _, h1⟩
        · rw [if_neg hty] at h1
          exact Or.inl h1
      · obtain ⟨row, hrow, heq⟩ := h1
        exact Or.inr ⟨row, List.mem_cons_of_mem _ hrow, heq⟩

/-- Claim C6: after construction every datetime field holding the
null-date sentinel is rewritten to null; no record handed to the batch
committer carries the sentinel in one of the five date fields. -/
theorem C6_no_sentinel_reaches_committer :
    ∀ (df : Df) (bank ty merchant : String) (commitOk : Bool),
      ∀ td ∈ batchOf (process_transactions df bank ty merchant commitOk),
        ∀ f ∈ datetime_fields, getField td f ≠ Value.vNaT := by
  intro df bank ty merchant commitOk td htd f hf
  rw [process_transactions] at htd
  cases e : BANK_CODE_MAPPING.lookup bank with
  | none => rw [e] at htd; cases htd
  | some bid =>
      rw [e] at htd
      dsimp only [batchOf] at htd
      rcases batch_mem_shape df.cols bank ty merchant bid df.rows (0, 0, []) td htd
        with h | ⟨row, _, rfl⟩
      · cases h
      · exact handle_nat_no_sentinel _ f hf

/-- Witness for C6 at a concrete icici chunk whose Transaction_Date
coerces to the sentinel. -/
theorem C6_witness :
    getField ((batchOf (process_transactions
        { cols := ["Transaction_Date"], rows := [[Value.vNaT]] }
        "icici" "both" "m" true)).getD 0 []) "Transaction_Date" ≠ Value.vNaT :=
  C6_no_sentinel_reaches_committer
    { cols := ["Transaction_Date"], rows := [[Value.vNaT]] }
    "icici" "both" "m" true _ (by decide) "Transaction_Date" (by decide)

/-- Claim C1 (amended): when the atomic batch commit of a chunk's
materialized records fails, the published BatchResult counts every row of
the chunk as failed, but the successful count still equals the number of
rows materialized (N, not 0), and no record of the batch persists. -/
theorem C1_commit_failure_result :
    ∀ (df : Df) (bank ty merchant : String) (bid : ℕ),
      BANK_CODE_MAPPING.lookup bank = some bid →
      (ty = "booking" ∨ ty = "refund" ∨ ty = "both") →
      ∃ out, process_transactions df bank ty merchant false = some out ∧
        out.result.total_successful = df.rows.length ∧
        out.result.total_failed = df.rows.length ∧
        out.persisted = [] := by
  intro df bank ty merchant bid hb hty
  refine ⟨_, process_transactions_valid df bank ty merchant false bid hb hty, ?_, ?_, ?_⟩
  · rfl
  · rfl
  · rfl

/-- Witness for C1 at a concrete one-row icici chunk. -/
theorem C1_witness :
    ∃ out, process_transactions { cols := ["Order_Id"], rows := [[Value.str "1"]] }
        "icici" "both" "m" false = some out ∧
      out.result.total_successful = 1 ∧
      out.result.total_failed = 1 ∧
      out.persisted = [] :=
  C1_commit_failure_result { cols := ["Order_Id"], rows := [[Value.str "1"]] }
    "icici" "both" "m" 102 rfl (Or.inr (Or.inr rfl))

/-- Counterexample to C1 as stated: on a failed commit of a one-row chunk
the published successful count is 1, not 0. -/
theorem C1_counterexample :
    (process_transactions { cols := ["Order_Id"], rows := [[Value.str "1"]] }
        "icici" "both" "m" false).map (fun out => out.result.total_successful) ≠
      some 0 := by
  have e : (process_transactions { cols := ["Order_Id"], rows := [[Value.str "1"]] }
      "icici" "both" "m" false).map (fun out => out.result.total_successful) =
      some 1 := rfl
  rw [e]
  simp

/-- Claim C2 (amended): during materialization each record's MID is the
row's own MID value when the bank is in the reports-own-MID set, else the
bank's registered numeric code; but a bank with no registered numeric
code makes `process_transactions` return early before any row is
processed — the whole chunk is dropped, not just individual rows. -/
theorem C2_mid_assignment :
    ∀ (df : Df) (bank ty merchant : String) (commitOk : Bool),
      (∀ bid out, BANK_CODE_MAPPING.lookup bank = some bid →
        (ty = "booking" ∨ ty = "refund" ∨ ty = "both") →
        process_transactions df bank ty merchant commitOk = some out →
        out.batch = df.rows.map (fun row => handle_nat_in_datetime_fields
          (build_transaction_data df.cols row bank ty merchant bid)) ∧
        ∀ row, getField (handle_nat_in_datetime_fields
            (build_transaction_data df.cols row bank ty merchant bid)) "MID" =
          (if banks_with_mid_override.contains bank
           then getCol df.cols "MID" row else Value.num bid))
      ∧ (BANK_CODE_MAPPING.lookup bank = none →
          process_transactions df bank ty merchant commitOk = none) := by
  intro df bank ty merchant commitOk
  constructor
  · intro bid out hb hty hout
    rw [process_transactions_valid df bank ty merchant commitOk bid hb hty] at hout
    cases hout
    constructor
    · rfl
    · intro row
      rw [getField_handle_nat]
      have hmid : getField (build_transaction_data df.cols row bank ty merchant bid)
          "MID" = (if banks_with_mid_override.contains bank
                   then getCol df.cols "MID" row else Value.num bid) := rfl
      have hnotdt : datetime_fields.contains "MID" = false := rfl
      rw [hnotdt, hmid]
      simp
  · intro hb
    rw [process_transactions, hb]

/-- Witness for C2 at a one-row karur_vysya chunk (code 40, not in the
override set) and a one-row icici chunk (override set). -/
theorem C2_witness :
    (∃ out, process_transactions { cols := ["MID"], rows := [[Value.str "m7"]] }
        "karur_vysya" "booking" "m" true = some out ∧
      getField (handle_nat_in_datetime_fields (build_transaction_data ["MID"]
        [Value.str "m7"] "karur_vysya" "booking" "m" 40)) "MID" = Value.num 40) ∧
    getField (handle_nat_in_datetime_fields (build_transaction_data ["MID"]
      [Value.str "m7"] "icici" "both" "m" 102)) "MID" = Value.str "m7" := by
  constructor
  · refine ⟨_, process_transactions_valid { cols := ["MID"], rows := [[Value.str "m7"]] }
      "karur_vysya" "booking" "m" true 40 rfl (Or.inl rfl), ?_⟩
    have h := ((C2_mid_assignment { cols := ["MID"], rows := [[Value.str "m7"]] }
        "karur_vysya" "booking" "m" true).1 40 _ rfl (Or.inl rfl)
        (process_transactions_valid { cols := ["MID"], rows := [[Value.str "m7"]] }
          "karur_vysya" "booking" "m" true 40 rfl (Or.inl rfl))).2 [Value.str "m7"]
    rw [h]
    rfl
  · have h := ((C2_mid_assignment { cols := ["MID"], rows := [[Value.str "m7"]] }
      "icici" "both" "m" true).1 102 _ rfl (Or.inr (Or.inr rfl))
      (process_transactions_valid { cols := ["MID"], rows := [[Value.str "m7"]] }
        "icici" "both" "m" true 102 rfl (Or.inr (Or.inr rfl)))).2 [Value.str "m7"]
    rw [h]
    rfl

/-- Counterexample to C2 as stated: for a bank with no registered numeric
code (here indus, which is even in the reports-own-MID set) the
materializer returns early and produces nothing at all, instead of
processing the chunk and failing rows individually. -/
theorem C2_counterexample :
    process_transactions { cols := ["MID"], rows := [[Value.str "m1"], [Value.str "m2"]] }
      "indus" "booking" "m" true = none := rfl

/-- Stripping is a sublist operation. -/
theorem stripList_sublist (l : List Char) : List.Sublist (stripList l) l := by
  have h1 : List.Sublist (l.dropWhile pyWs) l := List.dropWhile_sublist pyWs
  have h2 : List.Sublist ((l.dropWhile pyWs).reverse.dropWhile pyWs)
      (l.dropWhile pyWs).reverse := List.dropWhile_sublist pyWs
  have h3 := h2.reverse
  rw [List.reverse_reverse] at h3
  exact h3.trans h1

/-- A cleaned column name never contains an underscore. -/
theorem clean_no_underscore (s : String) :
    Char.ofNat 95 ∉ (clean_column_name s).data := by
  intro h
  have h1 : (clean_column_name s).data = cleanList s.data := rfl
  rw [h1] at h
  rw [cleanList] at h
  have h2 := (stripList_sublist _).subset h
  rw [removeDotUnderscore] at h2
  have h3 := List.of_mem_filter h2
  simp at h3

/-- Looking up an absent column yields null. -/
theorem getCol_not_mem (cols : List String) (name : String)
    (h : name ∉ cols) : ∀ row, getCol cols name row = Value.null := by
  induction cols with
  | nil => intro row; rfl
  | cons c cs ih =>
      intro row
      cases row with
      | nil => rfl
      | cons v vs =>
          rw [getCol]
          have hc : (c == name) = false := by
            rw [beq_eq_false_iff_ne]
            intro hcon
            exact h (hcon ▸ List.mem_cons_self c cs)
          rw [List.zip_cons_cons, List.find?]
          simp only [hc]
          have ih2 := ih (fun hm => h (List.mem_cons_of_mem c hm)) vs
          rw [getCol] at ih2
          exact ih2

/-- Outside the icici branch, the coercion stage never changes the column
list (in particular it adds no derived column). -/
theorem coerceStage_cols (dateOk : String → Bool) (bank : String) (df : Df)
    (hb : bank ≠ "icici") : (coerceStage dateOk bank df).cols = df.cols := by
  rw [coerceStage]
  dsimp only
  split_ifs <;> rfl

/-- The rename maps of the non-icici registry entries never produce the
derived credit/debit column name. -/
theorem cda_not_in_renamed (m : Mapping) (hm : m = kvBooking ∨ m = kvRefund)
    (cols : List String) :
    "CREDIT_DEBIT_AMOUNT" ∉
      (cols.map clean_column_name).map (renameCol m.column_mapping) := by
  intro h
  rw [List.mem_map] at h
  obtain ⟨x, hx, heq⟩ := h
  rw [List.mem_map] at hx
  obtain ⟨c, _, rfl⟩ := hx
  rw [renameCol] at heq
  cases e : List.lookup (clean_column_name c) m.column_mapping with
  | some t =>
      rw [e] at heq
      dsimp only at heq
      subst heq
      have hmem := lookup_mem e
      rcases hm with rfl | rfl
      · simp only [kvBooking, List.mem_cons, List.not_mem_nil, or_false] at hmem
        rcases hmem with h | h | h | h | h <;>
          (injection h with h1 h2; exact absurd h2 (by decide))
      · simp only [kvRefund, List.mem_cons, List.not_mem_nil, or_false] at hmem
        rcases hmem with h | h | h | h | h | h <;>
          (injection h with h1 h2; exact absurd h2 (by decide))
  | none =>
      rw [e] at heq
      dsimp only at heq
      apply clean_no_underscore c
      rw [heq]
      decide

/-- Reading the credit/debit field of a freshly built record looks up the
derived chunk column. -/
theorem getField_build_cda (cols : List String) (row : List Value)
    (bank ty merchant : String) (bid : ℕ) :
    getField (build_transaction_data cols row bank ty merchant bid)
      "Credit_Debit_Amount" = getCol cols "CREDIT_DEBIT_AMOUNT" row := rfl

/-- Every record in a published batch is the post-processed
materialization of one of the chunk's rows. -/
theorem process_transactions_batch_mem (df : Df) (bank ty merchant : String)
    (commitOk : Bool) (out : TxnOutcome)
    (h : process_transactions df bank ty merchant commitOk = some out) :
    ∀ td ∈ out.batch, ∃ bid row, BANK_CODE_MAPPING.lookup bank = some bid ∧
      row ∈ df.rows ∧ td = handle_nat_in_datetime_fields
        (build_transaction_data df.cols row bank ty merchant bid) := by
  intro td htd
  rw [process_transactions] at h
  cases e : BANK_CODE_MAPPING.lookup bank with
  | none => rw [e] at h; cases h
  | some bid =>
      rw [e] at h
      dsimp only at h
      injection h with h
      subst h
      rcases batch_mem_shape df.cols bank ty merchant bid df.rows (0, 0, []) td htd
        with h1 | ⟨row, hrow, rfl⟩
      · cases h1
      · exact ⟨bid, row, rfl, hrow, rfl⟩

/-- The chunk handed to the materializer by an accepted `afterResolve`
call: cleaned then renamed columns, coerced by `coerceStage`. -/
theorem afterResolve_ok (dateOk : String → Bool) (m : Mapping) (df : Df)
    (bank ty merchant : String) (commitOk : Bool) (o : Option TxnOutcome)
    (h : afterResolve dateOk m df bank ty merchant commitOk = Except.ok o) :
    process_transactions
      (coerceStage dateOk bank
        { cols := (df.cols.map clean_column_name).map (renameCol m.column_mapping),
          rows := df.rows })
      bank ty merchant commitOk = o := by
  rw [afterResolve] at h
  by_cases hall : ((m.columns.map clean_column_name).all
      (fun c => (df.cols.map clean_column_name).contains c)) = true
  · rw [if_pos hall] at h
    dsimp only at h
    injection h with h
  · rw [if_neg hall] at h
    cases h

/-- Claim C10: for every bank other than icici that resolves through the
registered schema mappings, the Credit_Debit_Amount field of every
materialized record is null — no rename target produces the derived
column and only the icici branch creates it. -/
theorem C10_credit_debit_null_non_icici :
    ∀ (dateOk : String → Bool) (df : Df) (bank ty merchant : String)
      (commitOk : Bool) (out : TxnOutcome),
      bank ≠ "icici" →
      process_dataframe_chunk dateOk df bank ty merchant commitOk =
        Except.ok (some out) →
      ∀ td ∈ out.batch, getField td "Credit_Debit_Amount" = Value.null := by
  intro dateOk df bank ty merchant commitOk out hb h td htd
  rw [process_dataframe_chunk] at h
  cases e : resolveMapping bank ty with
  | none => rw [e] at h; cases h
  | some m =>
      rw [e] at h
      have h2 := afterResolve_ok dateOk m df bank ty merchant commitOk (some out) h
      obtain ⟨bid, row, _, _, rfl⟩ :=
        process_transactions_batch_mem _ bank ty merchant commitOk out h2 td htd
      have hm2 : m = kvBooking ∨ m = kvRefund := by
        rcases resolve_cases e with ⟨_, _, rfl⟩ | ⟨_, _, rfl⟩ | ⟨hbank, _⟩
        · exact Or.inl rfl
        · exact Or.inr rfl
        · exact absurd hbank hb
      rw [getField_handle_nat]
      have hnotdt : datetime_fields.contains "Credit_Debit_Amount" = false := rfl
      rw [hnotdt]
      simp only [Bool.false_and, Bool.false_eq_true, if_false]
      rw [getField_build_cda]
      have hcols : (coerceStage dateOk bank
          { cols := (df.cols.map clean_column_name).map (renameCol m.column_mapping),
            rows := df.rows }).cols =
          (df.cols.map clean_column_name).map (renameCol m.column_mapping) :=
        coerceStage_cols dateOk bank _ hb
      rw [hcols]
      exact getCol_not_mem _ _ (cda_not_in_renamed m hm2 df.cols) row

/-- Witness for C10 at a concrete accepted karur_vysya booking chunk. -/
theorem C10_witness :
    ∃ out, process_dataframe_chunk noDate
        { cols := ["TXN DATE", "IRCTC ORDER NO.", "BANK BOOKING REF.NO.",
                   "BOOKING AMOUNT", "CREDITED ON"],
          rows := [[Value.str "d", Value.str "o", Value.str "b",
                    Value.str "10.00", Value.str "c"]] }
        "karur_vysya" "booking" "m" true = Except.ok (some out) ∧
      ∀ td ∈ out.batch, getField td "Credit_Debit_Amount" = Value.null := by
  have e : ∃ out, process_dataframe_chunk noDate
      { cols := ["TXN DATE", "IRCTC ORDER NO.", "BANK BOOKING REF.NO.",
                 "BOOKING AMOUNT", "CREDITED ON"],
        rows := [[Value.str "d", Value.str "o", Value.str "b",
                  Value.str "10.00", Value.str "c"]] }
      "karur_vysya" "booking" "m" true = Except.ok (some out) := ⟨_, rfl⟩
  obtain ⟨out, hout⟩ := e
  exact ⟨out, hout, C10_credit_debit_null_non_icici noDate _ "karur_vysya"
    "booking" "m" true out (by decide) hout⟩

/-- Claim C5: for the signed-net-settlement bank (icici), after coercing
Payable_Merchant, unparseable amounts are filled with zero and the derived
classification follows the sign (positive CREDIT, negative DEBIT, zero —
including filled unparseable values — null); every other bank's coercion
stage leaves the columns unchanged, so Credit_Debit_Amount stays null at
this stage. -/
theorem C5_sign_derivation :
    (∀ q : ℚ, creditDebitCell (Value.num q) =
      (if 0 < q then Value.str "CREDIT"
       else if q < 0 then Value.str "DEBIT" else Value.null))
    ∧ creditDebitCell (fillZeroCell (amtParseCell (Value.str "-50.00"))) =
        Value.str "DEBIT"
    ∧ creditDebitCell (fillZeroCell (amtParseCell (Value.str "50.00"))) =
        Value.str "CREDIT"
    ∧ amtParseCell (Value.str "abc") = Value.null
    ∧ creditDebitCell (fillZeroCell (amtParseCell (Value.str "abc"))) = Value.null
    ∧ creditDebitCell (fillZeroCell (amtParseCell (Value.str "0.00"))) = Value.null
    ∧ (∀ (dateOk : String → Bool) (df : Df),
        "Payable_Merchant" ∈ df.cols →
        coerceStage dateOk "icici" df =
          (let df1 := if df.cols.contains "Transaction_Date"
             then convert_column_to_datetime dateOk df "Transaction_Date" else df
           let df2 := if df1.cols.contains "Settlement_Date"
             then convert_column_to_datetime dateOk df1 "Settlement_Date" else df1
           let dfB := applyCol "Payable_Merchant" fillZeroCell
             (convert_payable_to_float df2 "Payable_Merchant")
           { cols := dfB.cols ++ ["CREDIT_DEBIT_AMOUNT"],
             rows := dfB.rows.map (fun r =>
               r ++ [creditDebitCell (getCol dfB.cols "Payable_Merchant" r)]) }))
    ∧ (∀ (dateOk : String → Bool) (df : Df) (bank : String),
        bank ≠ "icici" → (coerceStage dateOk bank df).cols = df.cols) := by
  refine ⟨fun q => rfl, ?_, ?_, rfl, ?_, ?_, ?_,
    fun dateOk df bank hb => coerceStage_cols dateOk bank df hb⟩
  · have e : amtParseCell (Value.str "-50.00") =
        Value.num (-(((50 : ℕ) : ℚ) + ((0 : ℕ) : ℚ) / (10 : ℚ) ^ (2 : ℕ))) := rfl
    rw [e]
    norm_num [creditDebitCell, fillZeroCell]
  · have e : amtParseCell (Value.str "50.00") =
        Value.num (((50 : ℕ) : ℚ) + ((0 : ℕ) : ℚ) / (10 : ℚ) ^ (2 : ℕ)) := rfl
    rw [e]
    norm_num [creditDebitCell, fillZeroCell]
  · have e : amtParseCell (Value.str "abc") = Value.null := rfl
    rw [e]
    norm_num [creditDebitCell, fillZeroCell]
  · have e : amtParseCell (Value.str "0.00") =
        Value.num (((0 : ℕ) : ℚ) + ((0 : ℕ) : ℚ) / (10 : ℚ) ^ (2 : ℕ)) := rfl
    rw [e]
    norm_num [creditDebitCell, fillZeroCell]
  · intro dateOk df hP
    rw [coerceStage]
    dsimp only
    split_ifs <;>
      first
        | rfl
        | exact absurd rfl (by assumption)
        | exact absurd (List.elem_iff.mpr hP) (by assumption)

/-- Witness for C5: the derived column is appended for icici and no
column is added for karur_vysya. -/
theorem C5_witness :
    (coerceStage noDate "icici"
      { cols := ["Payable_Merchant"], rows := [] }).cols =
      ["Payable_Merchant", "CREDIT_DEBIT_AMOUNT"] ∧
    (coerceStage noDate "karur_vysya"
      { cols := ["Payable_Merchant"], rows := [] }).cols =
      ["Payable_Merchant"] := by
  constructor
  · have h := C5_sign_derivation.2.2.2.2.2.2.1 noDate
      { cols := ["Payable_Merchant"], rows := [] } (by decide)
    rw [h]
    rfl
  · exact C5_sign_derivation.2.2.2.2.2.2.2 noDate
      { cols := ["Payable_Merchant"], rows := [] } "karur_vysya" (by decide)

/-- Remove from a chunk every column whose normalized name is `h`
(the "remove one expected header from the chunk's header set" operation
of the round-trip property). -/
def dropHeader (df : Df) (h : String) : Df :=
  { cols := df.cols.filter (fun c => !(clean_column_name c == h)),
    rows := df.rows.map (fun r =>
      ((df.cols.zip r).filter (fun p => !(clean_column_name p.1 == h))).map
        (fun p => p.2)) }

/-- A dropped header is gone from the normalized header set. -/
theorem dropHeader_not_mem (df : Df) (h : String) :
    h ∉ (dropHeader df h).cols.map clean_column_name := by
  intro hmem
  rw [List.mem_map] at hmem
  obtain ⟨c, hc, heq⟩ := hmem
  have h2 := List.of_mem_filter hc
  rw [heq] at h2
  simp at h2

/-- If an expected header is absent from the normalized chunk headers, the
header check of `afterResolve` fails. -/
theorem all_contains_false (expected cols1 : List String) (c : String)
    (hc : c ∈ expected) (hmiss : c ∉ cols1) :
    ¬(expected.all (fun x => cols1.contains x) = true) := by
  intro hall
  rw [List.all_eq_true] at hall
  exact hmiss (List.elem_iff.mp (hall c hc))

/-- Claim C4: a chunk missing any expected header is rejected whole, with
the missing set reported and nothing raised; and removing any single
expected header from an accepted chunk flips it to rejected. -/
theorem C4_missing_header_rejects_chunk :
    ∀ (dateOk : String → Bool) (df : Df) (bank ty merchant : String)
      (commitOk : Bool) (m : Mapping),
      resolveMapping bank ty = some m →
      ((∀ c ∈ m.columns.map clean_column_name,
          c ∉ df.cols.map clean_column_name →
          process_dataframe_chunk dateOk df bank ty merchant commitOk =
            Except.error (Reject.missingCols
              ((m.columns.map clean_column_name).filter
                (fun x => !((df.cols.map clean_column_name).contains x)))) ∧
          c ∈ (m.columns.map clean_column_name).filter
                (fun x => !((df.cols.map clean_column_name).contains x)))
        ∧ ((process_dataframe_chunk dateOk df bank ty merchant commitOk).isOk = true →
            ∀ h ∈ m.columns.map clean_column_name,
              ∃ miss, process_dataframe_chunk dateOk (dropHeader df h)
                  bank ty merchant commitOk =
                Except.error (Reject.missingCols miss) ∧ h ∈ miss)) := by
  intro dateOk df bank ty merchant commitOk m hm
  constructor
  · intro c hc hmiss
    have hall := all_contains_false _ _ c hc hmiss
    constructor
    · rw [process_dataframe_chunk, hm]
      dsimp only
      rw [afterResolve]
      dsimp only
      rw [if_neg hall]
    · rw [List.mem_filter]
      refine ⟨hc, ?_⟩
      have h2 : (df.cols.map clean_column_name).contains c = false := by
        rw [Bool.eq_false_iff]
        intro h3
        exact hmiss (List.elem_iff.mp h3)
      rw [h2]
      rfl
  · intro _ h hh
    have hmiss := dropHeader_not_mem df h
    have hall := all_contains_false (m.columns.map clean_column_name)
      ((dropHeader df h).cols.map clean_column_name) h hh hmiss
    refine ⟨(m.columns.map clean_column_name).filter
      (fun x => !(((dropHeader df h).cols.map clean_column_name).contains x)), ?_, ?_⟩
    · rw [process_dataframe_chunk, hm]
      dsimp only
      rw [afterResolve]
      dsimp only
      rw [if_neg hall]
    · rw [List.mem_filter]
      refine ⟨hh, ?_⟩
      have h2 : ((dropHeader df h).cols.map clean_column_name).contains h = false := by
        rw [Bool.eq_false_iff]
        intro h3
        exact hmiss (List.elem_iff.mp h3)
      rw [h2]
      rfl

/-- The concrete accepted karur_vysya booking chunk used as a witness. -/
def kvDfW : Df :=
  { cols := ["TXN DATE", "IRCTC ORDER NO.", "BANK BOOKING REF.NO.",
             "BOOKING AMOUNT", "CREDITED ON"],
    rows := [[Value.str "d", Value.str "o", Value.str "b",
              Value.str "10.00", Value.str "c"]] }

/-- Witness for C4: the witness chunk is accepted; dropping the cleaned
header TXNDATE flips it to rejected with TXNDATE in the missing set. -/
theorem C4_witness :
    (process_dataframe_chunk noDate kvDfW "karur_vysya" "booking" "m" true).isOk = true ∧
    (∃ miss, process_dataframe_chunk noDate (dropHeader kvDfW "TXNDATE")
        "karur_vysya" "booking" "m" true =
      Except.error (Reject.missingCols miss) ∧ "TXNDATE" ∈ miss) :=
  ⟨rfl,
   (C4_missing_header_rejects_chunk noDate kvDfW "karur_vysya" "booking" "m" true
      kvBooking rfl).2 rfl "TXNDATE" (by decide)⟩

/-- A list with no closing bracket has no bracket pair. -/
theorem hasClose_false_no_pair :
    ∀ {l : List Char}, hasClose l = false → hasPair l = false := by
  intro l
  induction l with
  | nil => intro _; rfl
  | cons c cs ih =>
      intro h
      rw [hasClose, List.any_cons] at h
      rw [Bool.or_eq_false_iff] at h
      rw [hasPair, Bool.or_eq_false_iff]
      constructor
      · rw [Bool.and_eq_false_iff]
        exact Or.inr h.2
      · exact ih h.2

/-- Absence of a closing bracket is inherited by sublists. -/
theorem hasClose_false_sublist {l1 l2 : List Char} (h : List.Sublist l1 l2)
    (h2 : hasClose l2 = false) : hasClose l1 = false := by
  rw [hasClose, List.any_eq_false] at h2 ⊢
  intro x hx
  exact h2 x (h.subset hx)

/-- Absence of a bracket pair is inherited by sublists. -/
theorem hasPair_false_sublist {l1 l2 : List Char} (h : List.Sublist l1 l2)
    (h2 : hasPair l2 = false) : hasPair l1 = false := by
  induction h with
  | slnil => rfl
  | cons a h ih =>
      apply ih
      rw [hasPair, Bool.or_eq_false_iff] at h2
      exact h2.2
  | cons₂ a h ih =>
      rw [hasPair, Bool.or_eq_false_iff] at h2 ⊢
      obtain ⟨h3, h4⟩ := h2
      constructor
      · rw [Bool.and_eq_false_iff] at h3 ⊢
        rcases h3 with h3 | h3
        · exact Or.inl h3
        · exact Or.inr (hasClose_false_sublist h h3)
      · exact ih h4

/-- The bracket-removal scan leaves no matchable bracket pair when the
input has no newline (with a newline, a pair split by it survives). -/
theorem rbGo_noPair :
    ∀ (l : List Char), Char.ofNat 10 ∉ l →
      ((∀ buf, hasClose buf = false → hasPair (rbGo (some buf) l) = false) ∧
       hasPair (rbGo none l) = false) := by
  intro l
  induction l with
  | nil =>
      intro _
      constructor
      · intro buf hbuf
        have h1 : rbGo (some buf) [] = buf.reverse := rfl
        rw [h1]
        apply hasClose_false_no_pair
        rw [hasClose, List.any_reverse]
        exact hbuf
      · rfl
  | cons c cs ih =>
      intro hnl
      have hnl2 : Char.ofNat 10 ∉ cs := fun h => hnl (List.mem_cons_of_mem c h)
      have hcnl : c ≠ Char.ofNat 10 := by
        intro h
        exact hnl (h ▸ List.mem_cons_self c cs)
      obtain ⟨ih1, ih2⟩ := ih hnl2
      constructor
      · intro buf hbuf
        by_cases h1 : c = ']'
        · have e : rbGo (some buf) (c :: cs) = rbGo none cs := by
            rw [rbGo, if_pos h1]
          rw [e]
          exact ih2
        · have e : rbGo (some buf) (c :: cs) = rbGo (some (c :: buf)) cs := by
            rw [rbGo, if_neg h1, if_neg hcnl]
          rw [e]
          apply ih1
          rw [hasClose, List.any_cons, Bool.or_eq_false_iff]
          exact ⟨by simp [h1], hbuf⟩
      · by_cases h1 : c = '['
        · have e : rbGo none (c :: cs) = rbGo (some [c]) cs := by
            rw [rbGo, if_pos h1]
          rw [e]
          apply ih1
          rw [h1]
          rfl
        · have e : rbGo none (c :: cs) = c :: rbGo none cs := by
            rw [rbGo, if_neg h1]
          rw [e]
          rw [hasPair, Bool.or_eq_false_iff]
          constructor
          · rw [Bool.and_eq_false_iff]
            exact Or.inl (by simp [h1])
          · exact ih2

/-- On input without a matchable pair the scan is the identity (and with a
closeless input a pending buffer is flushed verbatim). -/
theorem rbGo_self :
    ∀ (l : List Char),
      ((∀ buf, hasClose l = false → rbGo (some buf) l = buf.reverse ++ l) ∧
       (hasPair l = false → rbGo none l = l)) := by
  intro l
  induction l with
  | nil =>
      constructor
      · intro buf _
        have h1 : rbGo (some buf) [] = buf.reverse := rfl
        rw [h1, List.append_nil]
      · intro _
        rfl
  | cons c cs ih =>
      obtain ⟨ih1, ih2⟩ := ih
      constructor
      · intro buf h
        rw [hasClose, List.any_cons, Bool.or_eq_false_iff] at h
        obtain ⟨h1, h2⟩ := h
        have hc : c ≠ ']' := by
          intro hcon
          rw [hcon] at h1
          simp at h1
        by_cases hn : c = Char.ofNat 10
        · have e : rbGo (some buf) (c :: cs) = buf.reverse ++ c :: rbGo none cs := by
            rw [rbGo, if_neg hc, if_pos hn]
          rw [e, ih2 (hasClose_false_no_pair h2)]
        · have e : rbGo (some buf) (c :: cs) = rbGo (some (c :: buf)) cs := by
            rw [rbGo, if_neg hc, if_neg hn]
          rw [e, ih1 (c :: buf) h2, List.reverse_cons, List.append_assoc,
            List.singleton_append]
      · intro h
        rw [hasPair, Bool.or_eq_false_iff] at h
        obtain ⟨h1, h2⟩ := h
        by_cases hb : c = '['
        · rw [Bool.and_eq_false_iff] at h1
          have hcl : hasClose cs = false := by
            rcases h1 with h1 | h1
            · rw [hb] at h1
              simp at h1
            · exact h1
          have e : rbGo none (c :: cs) = rbGo (some [c]) cs := by
            rw [rbGo, if_pos hb]
          rw [e, ih1 [c] hcl]
          rfl
        · have e : rbGo none (c :: cs) = c :: rbGo none cs := by
            rw [rbGo, if_neg hb]
          rw [e, ih2 h2]

/-- `removeBrackets` output has no matchable pair (newline-free input). -/
theorem removeBrackets_noPair (l : List Char) (h : Char.ofNat 10 ∉ l) :
    hasPair (removeBrackets l) = false :=
  (rbGo_noPair l h).2

/-- `removeBrackets` is the identity on pair-free input. -/
theorem removeBrackets_eq_self (l : List Char) (h : hasPair l = false) :
    removeBrackets l = l :=
  (rbGo_self l).2 h

/-- `dropWhile` is the identity when no element satisfies the predicate. -/
theorem dropWhile_eq_self_of (p : Char → Bool) (l : List Char)
    (h : ∀ c ∈ l, p c = false) : l.dropWhile p = l := by
  cases l with
  | nil => rfl
  | cons c cs =>
      rw [List.dropWhile_cons, h c (List.mem_cons_self c cs)]
      simp

/-- `stripList` is the identity on whitespace-free input. -/
theorem stripList_eq_self (l : List Char) (h : ∀ c ∈ l, pyWs c = false) :
    stripList l = l := by
  rw [stripList, dropWhile_eq_self_of pyWs l h]
  rw [dropWhile_eq_self_of pyWs l.reverse (fun c hc => h c (List.mem_reverse.mp hc))]
  exact List.reverse_reverse l

/-- Characters surviving the cleaning pipeline: no whitespace, no dot, no
underscore. -/
theorem cleanList_chars (l : List Char) :
    ∀ c ∈ cleanList l, pyWs c = false ∧ (c = Char.ofNat 46 ∨ c = Char.ofNat 95 → False) := by
  intro c hc
  rw [cleanList] at hc
  have h1 := (stripList_sublist _).subset hc
  rw [removeDotUnderscore] at h1
  have h2 := List.of_mem_filter h1
  have h3 := List.mem_of_mem_filter h1
  rw [removeWs] at h3
  have h4 := List.of_mem_filter h3
  constructor
  · simp at h4
    exact h4
  · intro hcon
    rcases hcon with hcon | hcon <;> (rw [hcon] at h2; simp at h2)

/-- The cleaning pipeline output has no matchable bracket pair when the
input has no newline. -/
theorem cleanList_noPair (l : List Char) (h : Char.ofNat 10 ∉ l) :
    hasPair (cleanList l) = false := by
  rw [cleanList]
  apply hasPair_false_sublist (stripList_sublist _)
  apply hasPair_false_sublist (List.filter_sublist _)
  apply hasPair_false_sublist (List.filter_sublist _)
  exact removeBrackets_noPair l h

/-- Idempotence of the normalizer on newline-free input. -/
theorem cleanList_idem (l : List Char) (h : Char.ofNat 10 ∉ l) :
    cleanList (cleanList l) = cleanList l := by
  have hchars := cleanList_chars l
  have hpair := cleanList_noPair l h
  have e1 : removeBrackets (cleanList l) = cleanList l :=
    removeBrackets_eq_self _ hpair
  have e2 : removeWs (cleanList l) = cleanList l := by
    rw [removeWs]
    apply List.filter_eq_self.mpr
    intro c hc
    rw [(hchars c hc).1]
    rfl
  have e3 : removeDotUnderscore (cleanList l) = cleanList l := by
    rw [removeDotUnderscore]
    apply List.filter_eq_self.mpr
    intro c hc
    have h2 := (hchars c hc).2
    simp only [Bool.not_eq_true']
    rw [Bool.or_eq_false_iff]
    constructor
    · rw [decide_eq_false_iff_not]
      intro hcon
      exact h2 (Or.inl hcon)
    · rw [decide_eq_false_iff_not]
      intro hcon
      exact h2 (Or.inr hcon)
  have e4 : stripList (cleanList l) = cleanList l :=
    stripList_eq_self _ (fun c hc => (hchars c hc).1)
  calc cleanList (cleanList l)
      = stripList (removeDotUnderscore (removeWs (removeBrackets (cleanList l)))) := rfl
    _ = cleanList l := by rw [e1, e2, e3, e4]

/-- Claim C7 (amended): the column normalizer is idempotent on every
header string that contains no newline character.  (The bracket regex dot
does not cross a newline, while the whitespace pass deletes newlines, so a
bracketed segment split by a newline survives the first pass and is
removed by the second.) -/
theorem C7_normalizer_idempotent :
    ∀ s : String, Char.ofNat 10 ∉ s.data →
      clean_column_name (clean_column_name s) = clean_column_name s := by
  intro s h
  exact congrArg String.mk (cleanList_idem s.data h)

/-- Witness for C7 at a concrete bracketed, dotted header. -/
theorem C7_witness :
    Char.ofNat 10 ∉ "SESSION ID [ASPD].".data ∧
    clean_column_name (clean_column_name "SESSION ID [ASPD].") =
      clean_column_name "SESSION ID [ASPD]." :=
  ⟨by decide, C7_normalizer_idempotent "SESSION ID [ASPD]." (by decide)⟩

/-- Counterexample to C7 as stated: a newline inside a bracketed segment
defeats idempotence — one pass turns the header into a fresh bracketed
token which a second pass removes. -/
theorem C7_counterexample :
    clean_column_name (clean_column_name (String.mk
      ['[', 'a', Char.ofNat 10, 'b', ']'])) ≠
      clean_column_name (String.mk ['[', 'a', Char.ofNat 10, 'b', ']']) := by
  decide

end Mpr
